import Mathlib

/-!
Verification of the synchronization engine in `wb_orders_sync.py`.

The development shallowly embeds the program's functions:

* the time arithmetic the program performs through Python `datetime` /
  `zoneinfo` / `dateutil.isoparse` (instants are microseconds since the Unix
  epoch as `Int`; the proleptic Gregorian calendar conversions mirror
  `datetime._ymd2ord` / `datetime._ord2ymd`; the `Europe/Moscow` timezone is
  modeled as the fixed offset UTC+3, its value throughout the program's
  operating range — the zone has had no transitions since 2014 and the
  program's start-of-history floor is 2023-01-01),
* `parse_wb_dt_to_utc`, `format_dt_for_wb`,
* `wb_request` (HTTP transport as an oracle assigning a response to each
  attempt; the emitted request/sleep sequence is returned as a trace),
* `get_db_max_last_change_date_utc`, `delete_msk_day_from_db`,
  `upsert_orders_to_db` (the sink as a list of rows; the PostgREST
  `order=...desc&limit=1` select as a maximum),
* `transform_wb_orders` (fallible, in `Except`, since the Python code raises
  `KeyError` / parse errors on malformed records),
* `full_reload_day_msk` and `incremental_sync` (the paginated loop as a step
  function on the loop state plus a trace-producing run over an oracle list of
  pages).

Timestamp strings are abstracted to their parsed content (`WbTimestamp`): a
well-formed ISO `YYYY-MM-DDTHH:MM:SS[.ffffff][±HH:MM]` string is represented
by its field tuple, a malformed or empty string by dedicated constructors.
-/

namespace WbSync

/-! ## Proleptic Gregorian calendar (Python `datetime` internals) -/

/-- Leap-year predicate, Python `datetime._is_leap`. -/
def isLeap (y : Nat) : Bool := y % 4 == 0 && (y % 100 != 0 || y % 400 == 0)

/-- Python `datetime._DAYS_BEFORE_MONTH` table (cumulative days before month
`m` in a non-leap year, `m` between 1 and 12). -/
def daysBeforeMonthTbl (m : Nat) : Nat :=
  match m with
  | 1 => 0 | 2 => 31 | 3 => 59 | 4 => 90 | 5 => 120 | 6 => 151
  | 7 => 181 | 8 => 212 | 9 => 243 | 10 => 273 | 11 => 304 | _ => 334

/-- Python `datetime._DAYS_IN_MONTH[m]` adjusted by a leapness flag, as in
`_days_in_month`. -/
def daysInMonthFlag (m : Nat) (leap : Bool) : Nat :=
  match m with
  | 2 => if leap then 29 else 28
  | 4 => 30 | 6 => 30 | 9 => 30 | 11 => 30
  | _ => 31

/-- Python `datetime._days_in_month`. -/
def daysInMonth (y m : Nat) : Nat := daysInMonthFlag m (isLeap y)

/-- Python `datetime._days_before_month`. -/
def daysBeforeMonth (y m : Nat) : Nat :=
  daysBeforeMonthTbl m + (if 2 < m ∧ isLeap y = true then 1 else 0)

/-- Python `datetime._days_before_year`: days before January 1st of `year`
in the proleptic Gregorian calendar (year 1 has ordinal day 1). -/
def daysBeforeYear (year : Nat) : Nat :=
  let y := year - 1
  y * 365 + y / 4 - y / 100 + y / 400

/-- Python `datetime._ymd2ord`: proleptic Gregorian ordinal of a date. -/
def toordinal (y m d : Nat) : Nat :=
  daysBeforeYear y + daysBeforeMonth y m + d

/-- Month/day recovery step of Python `datetime._ord2ymd` (the part after the
century/year chain): `doy` is the zero-based day of the year, `lp` the
leapness flag the algorithm computed. -/
def ymdFromDoy (lp : Bool) (year doy : Nat) : Nat × Nat × Nat :=
  let month := (doy + 50) / 32
  let preceding := daysBeforeMonthTbl month + (if 2 < month ∧ lp = true then 1 else 0)
  if doy < preceding then
    (year, month - 1, doy - (preceding - daysInMonthFlag (month - 1) lp) + 1)
  else
    (year, month, doy - preceding + 1)

/-- Python `datetime._ord2ymd`: date of a proleptic Gregorian ordinal. -/
def fromordinal (n : Nat) : Nat × Nat × Nat :=
  let n0 := n - 1
  let n400 := n0 / 146097
  let r400 := n0 % 146097
  let n100 := r400 / 36524
  let r100 := r400 % 36524
  let n4 := r100 / 1461
  let r4 := r100 % 1461
  let n1 := r4 / 365
  let r1 := r4 % 365
  let year := n400 * 400 + 1 + n100 * 100 + n4 * 4 + n1
  if n1 = 4 ∨ n100 = 4 then (year - 1, 12, 31)
  else ymdFromDoy (n1 == 3 && (n4 != 24 || n100 == 3)) year r1

/-! ## Timestamps and instants

An instant is `Int` microseconds since the Unix epoch (1970-01-01T00:00:00
UTC).  `Europe/Moscow` is modeled as the fixed offset UTC+3 — its value
without transitions throughout the program's operating range (the zone has
been fixed at UTC+3 since 2014, and the program's start-of-history floor is
2023-01-01). -/

/-- `ZoneInfo("Europe/Moscow")` offset from UTC, in seconds. -/
def mskOffsetSeconds : Int := 10800

/-- `toordinal 1970 1 1`, the proleptic Gregorian ordinal of the Unix epoch. -/
def epochOrdinal : Nat := 719163

/-- Abstraction of an ISO-8601 datetime string in the full
`YYYY-MM-DDTHH:MM:SS[.ffffff][±HH:MM]` form accepted by `dateutil.isoparse`:
the string is represented by its parsed field content.  `micro` is the
fractional part scaled to microseconds (0 when absent); `offset` is the UTC
offset in seconds carried by the string, `none` when the string has no
offset (a naive timestamp). -/
structure WbTimestamp where
  year : Nat
  month : Nat
  day : Nat
  hour : Nat
  minute : Nat
  second : Nat
  micro : Nat
  offset : Option Int
deriving DecidableEq

/-- Field ranges `dateutil.isoparse` / `datetime` accept: four-digit year
(`datetime.MINYEAR = 1` to `MAXYEAR = 9999`), valid calendar date, time of
day below 24:00:00, microseconds below one second. -/
def WbTimestamp.Valid (t : WbTimestamp) : Prop :=
  1 ≤ t.year ∧ t.year ≤ 9999 ∧ 1 ≤ t.month ∧ t.month ≤ 12 ∧
  1 ≤ t.day ∧ t.day ≤ daysInMonth t.year t.month ∧
  t.hour ≤ 23 ∧ t.minute ≤ 59 ∧ t.second ≤ 59 ∧ t.micro ≤ 999999

instance (t : WbTimestamp) : Decidable t.Valid := by
  unfold WbTimestamp.Valid
  infer_instance

/-- `parse_wb_dt_to_utc(dt_str)`: `isoparse` the string; if it carries no
offset, interpret the wall-clock fields in Moscow time (`replace(tzinfo=MSK)`);
return the corresponding UTC instant (`astimezone(timezone.utc)`), here in
microseconds since the Unix epoch. -/
def parse_wb_dt_to_utc (t : WbTimestamp) : Int :=
  let offsetSeconds : Int :=
    match t.offset with
    | some o => o
    | none => mskOffsetSeconds
  (((toordinal t.year t.month t.day : Int) - (epochOrdinal : Int)) * 86400
      + (t.hour : Int) * 3600 + (t.minute : Int) * 60 + (t.second : Int)
      - offsetSeconds) * 1000000 + (t.micro : Int)

/-- `format_dt_for_wb(date_utc)`: convert the UTC instant to Moscow wall-clock
time (`astimezone(MSK)`) and print it at second precision without offset
(`strftime("%Y-%m-%dT%H:%M:%S")`), here as the parsed content of the printed
string. -/
def format_dt_for_wb (u : Int) : WbTimestamp :=
  let wallMicro := u + mskOffsetSeconds * 1000000
  let wallSeconds := wallMicro / 1000000
  let days := wallSeconds / 86400
  let tod := (wallSeconds % 86400).toNat
  let ymd := fromordinal ((days + (epochOrdinal : Int)).toNat)
  ⟨ymd.1, ymd.2.1, ymd.2.2, tod / 3600, tod % 3600 / 60, tod % 60, 0, none⟩

/-! ## String values, configuration, records -/

/-- A Python string value sitting in a timestamp position, abstracted to what
`isoparse` makes of it: well-formed strings are represented by their parsed
content, the empty string (falsy in Python, rejected by `isoparse`) and all
other unparseable values by dedicated constructors. -/
inductive WbStr where
  | wf (t : WbTimestamp)
  | emptyStr
  | malformed
deriving DecidableEq

/-- Python truthiness of a string value: only the empty string is falsy. -/
def WbStr.truthy : WbStr → Bool
  | .emptyStr => false
  | _ => true

/-- Parsed content of the sentinel string `"0001-01-01T00:00:00"`. -/
def sentinelTs : WbTimestamp := ⟨1, 1, 1, 0, 0, 0, 0, none⟩

/-- The sentinel string itself. -/
def sentinelStr : WbStr := .wf sentinelTs

/-- Exceptions the transformation code can raise: `KeyError` from `o["date"]` /
`o["lastChangeDate"]` on a missing key, and the `ValueError`/`TypeError`
family `isoparse` raises on unparseable input. -/
inductive PyErr where
  | keyError
  | parseError
deriving DecidableEq

/-- `isoparse` on a string value: well-formed content parses, anything else
raises. -/
def isoparseStr : WbStr → Except PyErr WbTimestamp
  | .wf t => .ok t
  | .emptyStr => .error .parseError
  | .malformed => .error .parseError

/-- Process configuration (`OVERLAP_MINUTES`, `BATCH_SIZE`, `WB_SLEEP_SECONDS`
environment variables). -/
structure Config where
  overlap_minutes : Int
  batch_size : Nat
  wb_sleep_seconds : Nat
deriving DecidableEq

/-- The defaults the source supplies when the environment does not. -/
def defaultConfig : Config := ⟨120, 500, 65⟩

/-- An upstream order record (one JSON object of the response list).  `α` is
the type of opaque scalar JSON values: `transform_wb_orders` copies every
non-timestamp field verbatim without inspecting it, so their representation
is irrelevant.  A field holds `none` when the key is absent from the JSON
object (Python `o.get(...)` returning `None`). -/
structure WbOrder (α : Type) where
  date : Option WbStr := none
  lastChangeDate : Option WbStr := none
  cancelDate : Option WbStr := none
  warehouseName : Option α := none
  warehouseType : Option α := none
  countryName : Option α := none
  oblastOkrugName : Option α := none
  regionName : Option α := none
  supplierArticle : Option α := none
  nmId : Option α := none
  barcode : Option α := none
  category : Option α := none
  subject : Option α := none
  brand : Option α := none
  techSize : Option α := none
  incomeID : Option α := none
  isSupply : Option α := none
  isRealization : Option α := none
  totalPrice : Option α := none
  discountPercent : Option α := none
  spp : Option α := none
  finishedPrice : Option α := none
  priceWithDisc : Option α := none
  isCancel : Option α := none
  sticker : Option α := none
  gNumber : Option α := none
  srid : Option α := none
deriving DecidableEq

/-- A row of the sink table `wb_orders`.  Timestamp columns hold UTC instants
(the program stores `parse_wb_dt_to_utc(...).isoformat()`, an offset-carrying
string that denotes exactly this instant). -/
structure SinkRow (α : Type) where
  date : Int
  last_change_date : Int
  warehouse_name : Option α
  warehouse_type : Option α
  country_name : Option α
  oblast_okrug_name : Option α
  region_name : Option α
  supplier_article : Option α
  nm_id : Option α
  barcode : Option α
  category : Option α
  subject : Option α
  brand : Option α
  tech_size : Option α
  income_id : Option α
  is_supply : Option α
  is_realization : Option α
  total_price : Option α
  discount_percent : Option α
  spp : Option α
  finished_price : Option α
  price_with_disc : Option α
  is_cancel : Option α
  cancel_date : Option Int
  sticker : Option α
  g_number : Option α
  srid : Option α
deriving DecidableEq

/-! ## Record transformer (`transform_wb_orders`) -/

/-- The sink row `transform_wb_orders` appends for one record: the two
normalized timestamps, the normalized cancellation value, and every other
field copied verbatim from the upstream record. -/
def transformFields {α : Type} (o : WbOrder α) (date_utc lcd_utc : Int)
    (cancel_utc : Option Int) : SinkRow α :=
  { date := date_utc
    last_change_date := lcd_utc
    warehouse_name := o.warehouseName
    warehouse_type := o.warehouseType
    country_name := o.countryName
    oblast_okrug_name := o.oblastOkrugName
    region_name := o.regionName
    supplier_article := o.supplierArticle
    nm_id := o.nmId
    barcode := o.barcode
    category := o.category
    subject := o.subject
    brand := o.brand
    tech_size := o.techSize
    income_id := o.incomeID
    is_supply := o.isSupply
    is_realization := o.isRealization
    total_price := o.totalPrice
    discount_percent := o.discountPercent
    spp := o.spp
    finished_price := o.finishedPrice
    price_with_disc := o.priceWithDisc
    is_cancel := o.isCancel
    cancel_date := cancel_utc
    sticker := o.sticker
    g_number := o.gNumber
    srid := o.srid }

/-- Body of the `for o in wb_orders` loop of `transform_wb_orders`: builds the
sink row for one record, or raises.  `o["date"]` and `o["lastChangeDate"]`
raise `KeyError` when absent and a parse error when unparseable;
`cancelDate` is read with `.get`, skipped when falsy or equal to the sentinel
string, parsed (fallibly) otherwise. -/
def transformOne {α : Type} (o : WbOrder α) : Except PyErr (SinkRow α) :=
  match o.date with
  | none => .error .keyError
  | some dateStr =>
    match isoparseStr dateStr with
    | .error e => .error e
    | .ok dateTs =>
      match o.lastChangeDate with
      | none => .error .keyError
      | some lcdStr =>
        match isoparseStr lcdStr with
        | .error e => .error e
        | .ok lcdTs =>
          match (match o.cancelDate with
                 | none => Except.ok (none : Option Int)
                 | some c =>
                   if c.truthy = true ∧ c ≠ sentinelStr then
                     (isoparseStr c).map (fun ts => some (parse_wb_dt_to_utc ts))
                   else Except.ok none) with
          | .error e => .error e
          | .ok cancel_utc =>
            Except.ok
              (transformFields o (parse_wb_dt_to_utc dateTs) (parse_wb_dt_to_utc lcdTs)
                cancel_utc)

/-- `transform_wb_orders`: the loop over all records, first raise aborts. -/
def transform_wb_orders {α : Type} (wb_orders : List (WbOrder α)) :
    Except PyErr (List (SinkRow α)) :=
  wb_orders.mapM transformOne

/-! ## Upstream client (`wb_request`) -/

/-- The `dateFrom` query parameter: a cursor timestamp string in incremental
mode, a `"YYYY-MM-DD"` day string in full-reload mode. -/
inductive DateFrom where
  | ts (s : WbStr)
  | day (y m d : Nat)
deriving DecidableEq

/-- One HTTP outcome for an attempt of `wb_request`: a 200 response whose
decoded JSON body is a list (`some records`) or not a list (`none`), a
non-200 status code, or a `requests.RequestException`. -/
inductive WbResp (α : Type) where
  | success (body : Option (List (WbOrder α)))
  | status (code : Nat)
  | netError

/-- Observable actions of `wb_request`: issuing the HTTP GET (with its query
parameters) and sleeping. -/
inductive WbEv where
  | request (dateFrom : DateFrom) (flag : Nat)
  | sleep (seconds : Nat)
deriving DecidableEq

/-- The retry loop of `wb_request` (`for attempt in range(1, max_retries+1)`).
`oracle` assigns the transport outcome to each attempt number; the result is
the emitted request/sleep trace together with the returned list (`[]` for a
non-list body, non-retryable statuses, or exhausted retries).  On 429 it
sleeps `max(WB_SLEEP_SECONDS, 65)` and retries; on 5xx or a network error it
sleeps `10 * attempt` and retries; any other non-200 status returns `[]`
immediately. -/
def wbRequestGo {α : Type} (cfg : Config) (dateFrom : DateFrom) (flag : Nat)
    (oracle : Nat → WbResp α) : Nat → Nat → List WbEv × List (WbOrder α)
  | _, 0 => ([], [])
  | attempt, rem + 1 =>
    match oracle attempt with
    | .success body => ([.request dateFrom flag], body.getD [])
    | .status code =>
      if code = 429 then
        let rest := wbRequestGo cfg dateFrom flag oracle (attempt + 1) rem
        (.request dateFrom flag :: .sleep (max cfg.wb_sleep_seconds 65) :: rest.1, rest.2)
      else if 500 ≤ code ∧ code < 600 then
        let rest := wbRequestGo cfg dateFrom flag oracle (attempt + 1) rem
        (.request dateFrom flag :: .sleep (10 * attempt) :: rest.1, rest.2)
      else ([.request dateFrom flag], [])
    | .netError =>
      let rest := wbRequestGo cfg dateFrom flag oracle (attempt + 1) rem
      (.request dateFrom flag :: .sleep (10 * attempt) :: rest.1, rest.2)

/-- `wb_request(date_from, flag, max_retries=6)` over a transport oracle. -/
def wb_request {α : Type} (cfg : Config) (dateFrom : DateFrom) (flag : Nat)
    (oracle : Nat → WbResp α) (max_retries : Nat) : List WbEv × List (WbOrder α) :=
  wbRequestGo cfg dateFrom flag oracle 1 max_retries

/-! ## Sink gateway -/

/-- `get_db_max_last_change_date_utc`: the PostgREST select
`select=last_change_date&order=last_change_date.desc&limit=1` is modeled as
the maximum of the stored column; when the table is empty the function
returns `datetime(2023, 1, 1, tzinfo=MSK)` converted to UTC. -/
def get_db_max_last_change_date_utc {α : Type} (table : List (SinkRow α)) : Int :=
  match (table.map (fun r => r.last_change_date)).max? with
  | none => parse_wb_dt_to_utc ⟨2023, 1, 1, 0, 0, 0, 0, none⟩
  | some v => v

/-- The `[start_utc, end_utc)` filter bounds `delete_msk_day_from_db` computes
for a `"YYYY-MM-DD"` day: midnight of that civil day in Moscow time as a UTC
instant, and `start_msk + timedelta(days=1)` — under the fixed-offset zone
exactly 86400 seconds later. -/
def delete_msk_day_range (y m d : Nat) : Int × Int :=
  let start_utc := parse_wb_dt_to_utc ⟨y, m, d, 0, 0, 0, 0, none⟩
  (start_utc, start_utc + 86400 * 1000000)

/-- Effect on the table of the PostgREST range delete
`date=gte.start_utc&date=lt.end_utc`. -/
def applyDeleteRange {α : Type} (s e : Int) (table : List (SinkRow α)) : List (SinkRow α) :=
  table.filter (fun r => !(decide (s ≤ r.date ∧ r.date < e)))

/-- Successor of a civil date (what adding one day to midnight does to the
date fields). -/
def nextCivilDay (y m d : Nat) : Nat × Nat × Nat :=
  if d < daysInMonth y m then (y, m, d + 1)
  else if m < 12 then (y, m + 1, 1)
  else (y + 1, 1, 1)

/-- The batch split `rows[i:i + BATCH_SIZE]` of `upsert_orders_to_db`. -/
def chunksOf {β : Type} (n : Nat) : List β → List (List β)
  | [] => []
  | x :: xs => (x :: xs.take (n - 1)) :: chunksOf n (xs.drop (n - 1))
termination_by l => l.length
decreasing_by simp [List.length_drop]; omega

/-! ## Sync orchestrator -/

/-- Observable calls the orchestrator issues, in order: an upstream fetch
(one `wb_request` call, retries abstracted), one upsert POST per batch, the
range delete, the inter-page sleep, and an uncaught exception terminating
the process. -/
inductive Event (α : Type) where
  | fetch (dateFrom : DateFrom) (flag : Nat)
  | upsert (batch : List (SinkRow α))
  | deleteRange (startUtc endUtc : Int)
  | sleep (seconds : Nat)
  | raise (e : PyErr)

/-- Call sequence of `upsert_orders_to_db(rows)`: nothing when `rows` is
empty, otherwise one POST per `BATCH_SIZE`-chunk. -/
def upsertEvents {α : Type} (cfg : Config) (rows : List (SinkRow α)) : List (Event α) :=
  match rows with
  | [] => []
  | _ :: _ => (chunksOf cfg.batch_size rows).map Event.upsert

/-- `full_reload_day_msk(day)`: delete the Moscow civil day, fetch the whole
day with `flag=1` (`wb_data` is the response), transform, upsert.  The
result is the emitted call sequence. -/
def full_reload_day_msk {α : Type} (cfg : Config) (y m d : Nat)
    (wb_data : List (WbOrder α)) : List (Event α) :=
  let range := delete_msk_day_range y m d
  Event.deleteRange range.1 range.2 ::
  Event.fetch (DateFrom.day y m d) 1 ::
  (match transform_wb_orders wb_data with
   | .error e => [Event.raise e]
   | .ok rows => upsertEvents cfg rows)

/-- In-memory pagination state of the `while True` loop of
`incremental_sync`: the current `cursor` string and `prev_cursor` (the
previous page's last `lastChangeDate`, `None` before the second page). -/
structure IncState where
  cursor : WbStr
  prev_cursor : Option WbStr
deriving DecidableEq

/-- Outcome of one iteration of the loop body on a fetched page. -/
inductive StepRes (α : Type) where
  | stopEmpty
  | stopNoLcd (upserted : List (SinkRow α))
  | crash (e : PyErr) (upserted : List (SinkRow α))
  | next (st : IncState) (upserted : List (SinkRow α))

/-- One iteration of the `while True` body of `incremental_sync` on the page
`wb_data` returned by `wb_request(cursor, flag=0)`: break on an empty page;
transform (uncaught exception on a bad record) and upsert; break if the last
row's `lastChangeDate` is missing or falsy; advance the cursor — bumping by
one second when the stall guard fires (`prev_cursor == last_row_lcd and
len(wb_data) >= 80000`), to the raw `lastChangeDate` string otherwise. -/
def incStep {α : Type} (st : IncState) (wb_data : List (WbOrder α)) : StepRes α :=
  match wb_data with
  | [] => .stopEmpty
  | x :: xs =>
    let wb_data := x :: xs
    match transform_wb_orders wb_data with
    | .error e => .crash e []
    | .ok transformed =>
      match (wb_data.getLast (List.cons_ne_nil x xs)).lastChangeDate with
      | none => .stopNoLcd transformed
      | some lcd =>
        if lcd.truthy = false then .stopNoLcd transformed
        else if st.prev_cursor = some lcd ∧ 80000 ≤ wb_data.length then
          match isoparseStr lcd with
          | .error e => .crash e transformed
          | .ok ts =>
            .next ⟨.wf (format_dt_for_wb (parse_wb_dt_to_utc ts + 1000000)), some lcd⟩
              transformed
        else .next ⟨lcd, some lcd⟩ transformed

/-- Initial pagination state of `incremental_sync`: cursor =
`format_dt_for_wb(get_db_max_last_change_date_utc() - overlap)`,
`prev_cursor = None`. -/
def incInitState {α : Type} (cfg : Config) (table : List (SinkRow α)) : IncState :=
  let db_max_lcd := get_db_max_last_change_date_utc table
  let start_utc := db_max_lcd - cfg.overlap_minutes * 60 * 1000000
  ⟨.wf (format_dt_for_wb start_utc), none⟩

/-- The pagination loop over an oracle list of successive pages (the
responses `wb_request` returns).  Produces the emitted call sequence; when
the oracle list is exhausted the trace is truncated just after the next
fetch is issued. -/
def incLoop {α : Type} (cfg : Config) : IncState → List (List (WbOrder α)) → List (Event α)
  | st, [] => [Event.fetch (DateFrom.ts st.cursor) 0]
  | st, page :: rest =>
    Event.fetch (DateFrom.ts st.cursor) 0 ::
    (match incStep st page with
     | .stopEmpty => []
     | .stopNoLcd rows => upsertEvents cfg rows
     | .crash e rows => upsertEvents cfg rows ++ [Event.raise e]
     | .next st' rows =>
       upsertEvents cfg rows ++ (Event.sleep cfg.wb_sleep_seconds :: incLoop cfg st' rest))

/-- `incremental_sync()` over a sink table and a page oracle. -/
def incremental_sync {α : Type} (cfg : Config) (table : List (SinkRow α))
    (pages : List (List (WbOrder α))) : List (Event α) :=
  incLoop cfg (incInitState cfg table) pages


/-! ## Sample values used in concrete witnesses -/

/-- An arbitrary well-formed timestamp. -/
def sampleTs : WbTimestamp := ⟨2024, 3, 1, 12, 0, 0, 0, none⟩

/-- A well-shaped upstream record. -/
def sampleOrder : WbOrder Unit :=
  { date := some (.wf sampleTs), lastChangeDate := some (.wf sampleTs) }

/-- The sink row `transform_wb_orders` produces for `sampleOrder`. -/
def sampleRow : SinkRow Unit :=
  transformFields sampleOrder (parse_wb_dt_to_utc sampleTs) (parse_wb_dt_to_utc sampleTs) none

/-- The wall-clock content of the initial cursor of a default
`incremental_sync` run over an empty sink: the 2023-01-01 Moscow floor minus
the 120-minute overlap, i.e. 2022-12-31T22:00:00 Moscow time. -/
def cursorTs : WbTimestamp := ⟨2022, 12, 31, 22, 0, 0, 0, none⟩

/-- A well-shaped record whose `lastChangeDate` equals that initial cursor. -/
def cursorOrder : WbOrder Unit :=
  { date := some (.wf cursorTs), lastChangeDate := some (.wf cursorTs) }

/-- The sink row `transform_wb_orders` produces for `cursorOrder`. -/
def cursorRow : SinkRow Unit :=
  transformFields cursorOrder (parse_wb_dt_to_utc cursorTs) (parse_wb_dt_to_utc cursorTs) none

/-- A well-shaped record whose `cancelDate` is the sentinel string. -/
def sampleCancelOrder : WbOrder Unit :=
  { date := some (.wf sampleTs), lastChangeDate := some (.wf sampleTs),
    cancelDate := some sentinelStr }

/-- A sink row whose `last_change_date` column holds the instant `5`. -/
def sampleSinkRow : SinkRow Unit := transformFields ({} : WbOrder Unit) 0 5 none

/-- The §3 data-model shape of an upstream order record: the required
temporal fields `date` and `lastChangeDate` are present and well-formed
timestamp strings, and the optional `cancelDate` is absent or a well-formed
timestamp string (the sentinel `0001-01-01T00:00:00` is itself well-formed). -/
def UpstreamShaped {α : Type} (o : WbOrder α) : Prop :=
  (∃ t, o.date = some (WbStr.wf t)) ∧ (∃ t, o.lastChangeDate = some (WbStr.wf t)) ∧
  (o.cancelDate = none ∨ ∃ t, o.cancelDate = some (WbStr.wf t))

/-- A sink row dated noon (Moscow) of 2024-03-01 — inside that civil day. -/
def inRangeRow : SinkRow Unit :=
  transformFields ({} : WbOrder Unit) (parse_wb_dt_to_utc ⟨2024, 3, 1, 12, 0, 0, 0, none⟩) 0 none

/-- A sink row dated 2024-02-01 (Moscow midnight) — outside 2024-03-01. -/
def outRangeRow : SinkRow Unit :=
  transformFields ({} : WbOrder Unit) (parse_wb_dt_to_utc ⟨2024, 2, 1, 0, 0, 0, 0, none⟩) 0 none

/-! ## Theorems -/

/-! ### Calendar inversion -/

theorem ymdFromDoy_eq (lp : Bool) (year m d doy : Nat) (hm1 : 1 ≤ m) (hm2 : m ≤ 12)
    (hd1 : 1 ≤ d) (hd2 : d ≤ daysInMonthFlag m lp)
    (hdoy : doy = daysBeforeMonthTbl m + (if 2 < m ∧ lp = true then 1 else 0) + d - 1)
    (h364 : doy ≤ 364) :
    ymdFromDoy lp year doy = (year, m, d) := by
  have hEst : (doy + 50) / 32 = m ∨ (doy + 50) / 32 = m + 1 := by
    interval_cases m <;> cases lp <;>
      norm_num [daysBeforeMonthTbl, daysInMonthFlag] at hdoy hd2 <;> omega
  simp only [ymdFromDoy]
  rcases hEst with h | h <;> rw [h] <;> interval_cases m <;> cases lp <;>
    norm_num [daysBeforeMonthTbl, daysInMonthFlag] at hdoy hd2 ⊢ <;>
    (try split_ifs) <;>
    (try simp only [Prod.mk.injEq, true_and, and_true]) <;> omega

theorem doy_bounds (lp : Bool) (m d : Nat) (hm1 : 1 ≤ m) (hm2 : m ≤ 12)
    (hd1 : 1 ≤ d) (hd2 : d ≤ daysInMonthFlag m lp) :
    daysBeforeMonthTbl m + (if 2 < m ∧ lp = true then 1 else 0) + d - 1
        ≤ 364 + (if lp = true then 1 else 0)
    ∧ (daysBeforeMonthTbl m + (if 2 < m ∧ lp = true then 1 else 0) + d - 1 = 365
        → m = 12 ∧ d = 31 ∧ lp = true) := by
  interval_cases m <;> cases lp <;>
    norm_num [daysBeforeMonthTbl, daysInMonthFlag] at hd2 ⊢ <;> omega

theorem fromordinal_struct (E A C S doy : Nat) (hA : A ≤ 3) (hC : C ≤ 24) (hS : S ≤ 3)
    (hdoy : doy ≤ 364) :
    fromordinal (146097*E + 36524*A + 1461*C + 365*S + doy + 1)
      = ymdFromDoy (S == 3 && (C != 24 || A == 3)) (E * 400 + 1 + A * 100 + C * 4 + S) doy := by
  simp only [fromordinal]
  have h0 : 146097*E + 36524*A + 1461*C + 365*S + doy + 1 - 1
      = 146097*E + (36524*A + 1461*C + 365*S + doy) := by omega
  rw [h0]
  have h1 : (146097*E + (36524*A + 1461*C + 365*S + doy)) / 146097 = E := by omega
  have h2 : (146097*E + (36524*A + 1461*C + 365*S + doy)) % 146097
      = 36524*A + 1461*C + 365*S + doy := by omega
  rw [h1, h2]
  have h3 : (36524*A + 1461*C + 365*S + doy) / 36524 = A := by omega
  have h4 : (36524*A + 1461*C + 365*S + doy) % 36524 = 1461*C + 365*S + doy := by omega
  rw [h3, h4]
  have h5 : (1461*C + 365*S + doy) / 1461 = C := by omega
  have h6 : (1461*C + 365*S + doy) % 1461 = 365*S + doy := by omega
  rw [h5, h6]
  have h7 : (365*S + doy) / 365 = S := by omega
  have h8 : (365*S + doy) % 365 = doy := by omega
  rw [h7, h8]
  rw [if_neg (by omega)]

theorem fromordinal_struct_leapday (E A C : Nat) (hA : A ≤ 3) (hC : C ≤ 24)
    (hlast : C = 24 → A = 3) :
    fromordinal (146097*E + 36524*A + 1461*C + 365*3 + 365 + 1)
      = (400*E + 100*A + 4*C + 4, 12, 31) := by
  simp only [fromordinal]
  rcases Nat.lt_or_ge C 24 with hC23 | hC24
  · have h0 : 146097*E + 36524*A + 1461*C + 365*3 + 365 + 1 - 1
        = 146097*E + (36524*A + (1461*C + 1460)) := by omega
    rw [h0]
    have h1 : (146097*E + (36524*A + (1461*C + 1460))) / 146097 = E := by omega
    have h2 : (146097*E + (36524*A + (1461*C + 1460))) % 146097
        = 36524*A + (1461*C + 1460) := by omega
    rw [h1, h2]
    have h3 : (36524*A + (1461*C + 1460)) / 36524 = A := by omega
    have h4 : (36524*A + (1461*C + 1460)) % 36524 = 1461*C + 1460 := by omega
    rw [h3, h4]
    have h5 : (1461*C + 1460) / 1461 = C := by omega
    have h6 : (1461*C + 1460) % 1461 = 1460 := by omega
    rw [h5, h6]
    have h7 : (1460 : Nat) / 365 = 4 := by norm_num
    rw [h7]
    rw [if_pos (Or.inl rfl)]
    simp only [Prod.mk.injEq, true_and, and_true]
    omega
  · have hC' : C = 24 := by omega
    have hA' : A = 3 := hlast hC'
    subst hC' hA'
    have h0 : 146097*E + 36524*3 + 1461*24 + 365*3 + 365 + 1 - 1
        = 146097*E + 146096 := by omega
    rw [h0]
    have h1 : (146097*E + 146096) / 146097 = E := by omega
    have h2 : (146097*E + 146096) % 146097 = 146096 := by omega
    rw [h1, h2]
    norm_num
    omega

set_option maxRecDepth 4000 in
theorem isLeap_decomp (y E A C S : Nat) (hy2 : y = 400*E + 100*A + 4*C + S + 1)
    (hA : A ≤ 3) (hC : C ≤ 24) (hS : S ≤ 3) :
    isLeap y = (S == 3 && (C != 24 || A == 3)) := by
  apply Bool.eq_iff_iff.mpr
  simp only [isLeap, Bool.and_eq_true, beq_iff_eq, Bool.or_eq_true, bne_iff_ne, ne_eq]
  omega

/-- Round trip of the Python ordinal conversions: `_ord2ymd` inverts
`_ymd2ord` on every valid proleptic Gregorian date. -/
theorem fromordinal_toordinal (y m d : Nat) (hy : 1 ≤ y) (hm1 : 1 ≤ m) (hm2 : m ≤ 12)
    (hd1 : 1 ≤ d) (hd2 : d ≤ daysInMonth y m) :
    fromordinal (toordinal y m d) = (y, m, d) := by
  obtain ⟨E, A, C, S, hE, hA, hC, hS⟩ :
      ∃ E A C S, y - 1 = 400*E + 100*A + 4*C + S ∧ A ≤ 3 ∧ C ≤ 24 ∧ S ≤ 3 :=
    ⟨(y-1)/400, (y-1)%400/100, (y-1)%400%100/4, (y-1)%400%100%4,
      by omega, by omega, by omega, by omega⟩
  have hy2 : y = 400*E + 100*A + 4*C + S + 1 := by omega
  have hleap : isLeap y = (S == 3 && (C != 24 || A == 3)) := isLeap_decomp y E A C S hy2 hA hC hS
  have hdim : d ≤ daysInMonthFlag m (isLeap y) := hd2
  have hdoyb := doy_bounds (isLeap y) m d hm1 hm2 hd1 hdim
  have hto : toordinal y m d
      = 146097*E + 36524*A + 1461*C + 365*S
        + (daysBeforeMonthTbl m + (if 2 < m ∧ isLeap y = true then 1 else 0) + d - 1) + 1 := by
    simp only [toordinal, daysBeforeYear, daysBeforeMonth]
    omega
  rcases Nat.lt_or_ge (daysBeforeMonthTbl m + (if 2 < m ∧ isLeap y = true then 1 else 0) + d - 1)
      365 with hreg | hbig
  · rw [hto, fromordinal_struct E A C S _ hA hC hS (by omega), ← hleap]
    have hyr : E * 400 + 1 + A * 100 + C * 4 + S = y := by omega
    rw [hyr]
    exact ymdFromDoy_eq (isLeap y) y m d _ hm1 hm2 hd1 hdim rfl (by omega)
  · have houter : (if isLeap y = true then 1 else 0) ≤ 1 := by
      split_ifs <;> omega
    have hinner : (if 2 < m ∧ isLeap y = true then 1 else 0)
        ≤ (if isLeap y = true then 1 else 0) := by
      split_ifs <;> first | omega | tauto
    have h365 : daysBeforeMonthTbl m + (if 2 < m ∧ isLeap y = true then 1 else 0) + d - 1
        = 365 := by
      rcases hdoyb with ⟨hb, _⟩
      omega
    obtain ⟨hm12, hd31, hlp⟩ := hdoyb.2 h365
    have hS3 : S = 3 ∧ (C ≠ 24 ∨ A = 3) := by
      rw [hleap] at hlp
      simpa using hlp
    have hlast : C = 24 → A = 3 := by
      intro h24
      rcases hS3.2 with h | h
      · exact absurd h24 h
      · exact h
    rw [hto, h365, hS3.1, fromordinal_struct_leapday E A C hA hC hlast]
    simp only [Prod.mk.injEq, and_true]
    constructor
    · omega
    · exact ⟨hm12.symm, hd31.symm⟩


theorem toordinal_pos (y m d : Nat) (hd : 1 ≤ d) : 1 ≤ toordinal y m d := by
  simp only [toordinal]
  omega

theorem format_eval (N : Nat) (T us : Int) (hN : 1 ≤ N)
    (hT0 : 0 ≤ T) (hT1 : T < 86400) (hus0 : 0 ≤ us) (hus1 : us < 1000000) :
    format_dt_for_wb (((N : Int) - 719163) * 86400 * 1000000 + T * 1000000 + us
        - 10800 * 1000000)
      = ⟨(fromordinal N).1, (fromordinal N).2.1, (fromordinal N).2.2,
          T.toNat / 3600, T.toNat % 3600 / 60, T.toNat % 60, 0, none⟩ := by
  simp only [format_dt_for_wb, mskOffsetSeconds, epochOrdinal, Nat.cast_ofNat]
  have e1 : ((N : Int) - 719163) * 86400 * 1000000 + T * 1000000 + us
        - 10800 * 1000000 + 10800 * 1000000
      = (((N : Int) - 719163) * 86400 + T) * 1000000 + us := by ring
  rw [e1]
  have e2 : ((((N : Int) - 719163) * 86400 + T) * 1000000 + us) / 1000000
      = ((N : Int) - 719163) * 86400 + T := by omega
  rw [e2]
  have e3 : (((N : Int) - 719163) * 86400 + T) / 86400 = (N : Int) - 719163 := by omega
  have e4 : (((N : Int) - 719163) * 86400 + T) % 86400 = T := by omega
  rw [e3, e4]
  have e5 : ((N : Int) - 719163 + 719163).toNat = N := by omega
  rw [e5]

/-- Core of the timezone round trip: parsing a well-formed offset-less
timestamp as Moscow wall-clock time and formatting the resulting UTC instant
back reproduces the original fields truncated to whole seconds. -/
theorem parse_format_roundtrip (t : WbTimestamp) (hv : t.Valid) (ho : t.offset = none) :
    format_dt_for_wb (parse_wb_dt_to_utc t)
      = ⟨t.year, t.month, t.day, t.hour, t.minute, t.second, 0, none⟩ := by
  obtain ⟨y, m, d, hh, mi, s, us, off⟩ := t
  simp only [WbTimestamp.Valid] at hv
  obtain ⟨hy1, hy2, hm1, hm2, hd1, hd2, hhh, hmi, hs, hus⟩ := hv
  simp only at ho
  subst ho
  have key : parse_wb_dt_to_utc ⟨y, m, d, hh, mi, s, us, none⟩
      = ((toordinal y m d : Int) - 719163) * 86400 * 1000000
        + ((hh : Int) * 3600 + (mi : Int) * 60 + (s : Int)) * 1000000 + (us : Int)
        - 10800 * 1000000 := by
    simp only [parse_wb_dt_to_utc, mskOffsetSeconds, epochOrdinal]
    ring
  rw [key,
    format_eval (toordinal y m d) ((hh : Int) * 3600 + (mi : Int) * 60 + (s : Int)) (us : Int)
      (toordinal_pos y m d hd1) (by omega) (by omega) (by omega) (by omega),
    fromordinal_toordinal y m d (by omega) hm1 hm2 hd1 hd2]
  have eT : (((hh : Int) * 3600 + (mi : Int) * 60 + (s : Int)).toNat)
      = hh * 3600 + mi * 60 + s := by omega
  rw [eT]
  simp only [WbTimestamp.mk.injEq, true_and, and_true]
  omega

/-! ## Helper lemmas about the transformer and the loop body -/

theorem transform_nil {α : Type} : transform_wb_orders ([] : List (WbOrder α)) = .ok [] := rfl

theorem transform_ok_cons {α : Type} {o : WbOrder α} {l : List (WbOrder α)}
    {rows : List (SinkRow α)} :
    transform_wb_orders (o :: l) = .ok rows ↔
      ∃ r rs, transformOne o = .ok r ∧ transform_wb_orders l = .ok rs ∧ rows = r :: rs := by
  simp only [transform_wb_orders, List.mapM_cons]
  cases h : transformOne o <;> cases h2 : l.mapM transformOne <;>
    simp [h, h2, bind, Except.bind, pure, Except.pure, eq_comm]

theorem transform_ok_mem {α : Type} {l : List (WbOrder α)} {rows : List (SinkRow α)}
    (h : transform_wb_orders l = .ok rows) :
    ∀ o ∈ l, ∃ r, transformOne o = .ok r := by
  induction l generalizing rows with
  | nil => intro o ho; simp at ho
  | cons x xs ih =>
    rw [transform_ok_cons] at h
    obtain ⟨r, rs, hr, hrs, _⟩ := h
    intro o ho
    rcases List.mem_cons.mp ho with rfl | ho
    · exact ⟨r, hr⟩
    · exact ih hrs o ho

theorem transform_ok_forall₂ {α : Type} {l : List (WbOrder α)} {rows : List (SinkRow α)}
    (h : transform_wb_orders l = .ok rows) :
    List.Forall₂ (fun o r => transformOne o = .ok r) l rows := by
  induction l generalizing rows with
  | nil =>
    rw [transform_nil] at h
    cases h
    exact List.Forall₂.nil
  | cons x xs ih =>
    rw [transform_ok_cons] at h
    obtain ⟨r, rs, hr, hrs, rfl⟩ := h
    exact List.Forall₂.cons hr (ih hrs)

theorem transform_replicate {α : Type} (o : WbOrder α) (r : SinkRow α)
    (h : transformOne o = .ok r) (n : Nat) :
    transform_wb_orders (List.replicate n o) = .ok (List.replicate n r) := by
  induction n with
  | zero => rfl
  | succ k ih =>
    simp only [List.replicate_succ]
    rw [transform_ok_cons]
    exact ⟨r, List.replicate k r, h, ih, rfl⟩

theorem getLast_replicate {β : Type} (n : Nat) (o : β) (h : List.replicate n o ≠ []) :
    (List.replicate n o).getLast h = o :=
  List.eq_of_mem_replicate (List.getLast_mem h)

theorem transformOne_ok_lcd {α : Type} {o : WbOrder α} {r : SinkRow α}
    (h : transformOne o = .ok r) :
    ∃ t, o.lastChangeDate = some (WbStr.wf t) := by
  cases hdate : o.date with
  | none => simp [transformOne, hdate] at h
  | some ds =>
    cases ds with
    | emptyStr => simp [transformOne, hdate, isoparseStr] at h
    | malformed => simp [transformOne, hdate, isoparseStr] at h
    | wf dateTs =>
      cases hlcd : o.lastChangeDate with
      | none => simp [transformOne, hdate, hlcd, isoparseStr] at h
      | some ls =>
        cases ls with
        | wf lcdTs => exact ⟨lcdTs, rfl⟩
        | emptyStr => simp [transformOne, hdate, hlcd, isoparseStr] at h
        | malformed => simp [transformOne, hdate, hlcd, isoparseStr] at h

/-- Reduction of the loop body on a non-empty page whose transformation
succeeds: the step always advances, bumping the cursor exactly when the
stall-guard condition holds. -/
theorem incStep_advance {α : Type} (st : IncState) (x : WbOrder α) (xs : List (WbOrder α))
    (rows : List (SinkRow α)) (t : WbTimestamp)
    (hok : transform_wb_orders (x :: xs) = .ok rows)
    (hlast : ((x :: xs).getLast (List.cons_ne_nil x xs)).lastChangeDate
      = some (WbStr.wf t)) :
    incStep st (x :: xs)
      = if st.prev_cursor = some (WbStr.wf t) ∧ 80000 ≤ (x :: xs).length
        then .next ⟨WbStr.wf (format_dt_for_wb (parse_wb_dt_to_utc t + 1000000)),
            some (WbStr.wf t)⟩ rows
        else .next ⟨WbStr.wf t, some (WbStr.wf t)⟩ rows := by
  simp only [incStep]
  rw [hok, hlast]
  simp only [WbStr.truthy, isoparseStr]
  split_ifs <;> simp_all


theorem incStep_cons_ne_stopEmpty {α : Type} (st : IncState) (x : WbOrder α)
    (xs : List (WbOrder α)) : incStep st (x :: xs) ≠ .stopEmpty := by
  cases h2 : transform_wb_orders (x :: xs) with
  | error e =>
    have hc : incStep st (x :: xs) = .crash e [] := by
      simp only [incStep]
      rw [h2]
    rw [hc]
    simp
  | ok rows =>
    obtain ⟨r, hr⟩ := transform_ok_mem h2 _ (List.getLast_mem (List.cons_ne_nil x xs))
    obtain ⟨t, hlast⟩ := transformOne_ok_lcd hr
    rw [incStep_advance st x xs rows t h2 hlast]
    split <;> simp

theorem incStep_ne_stopNoLcd {α : Type} (st : IncState) (page : List (WbOrder α))
    (rows' : List (SinkRow α)) : incStep st page ≠ .stopNoLcd rows' := by
  cases page with
  | nil => simp [incStep]
  | cons x xs =>
    cases h2 : transform_wb_orders (x :: xs) with
    | error e =>
      have hc : incStep st (x :: xs) = .crash e [] := by
        simp only [incStep]
        rw [h2]
      rw [hc]
      simp
    | ok rows =>
      obtain ⟨r, hr⟩ := transform_ok_mem h2 _ (List.getLast_mem (List.cons_ne_nil x xs))
      obtain ⟨t, hlast⟩ := transformOne_ok_lcd hr
      rw [incStep_advance st x xs rows t h2 hlast]
      split <;> simp

/-! ## Claims -/

/-- **C1** (amended).  The loop's normal `break` on an empty page fires exactly
when the fetched page is empty; the secondary `break` for a missing or falsy
`lastChangeDate` on the last row is unreachable (the preceding transformation
of that very record would already have raised); and on a non-empty page whose
transformation succeeds the loop always continues.  However — against the
claim as frozen — an empty page is not the sole termination condition: a
non-empty page containing a record with a missing or malformed `date` /
`lastChangeDate` terminates the run through an uncaught exception (see the
counterexample). -/
theorem C1_empty_page_termination {α : Type} (st : IncState) (page : List (WbOrder α)) :
    (incStep st page = .stopEmpty ↔ page = [])
    ∧ (∀ rows, incStep st page ≠ .stopNoLcd rows)
    ∧ (∀ rows, transform_wb_orders page = .ok rows → page ≠ [] →
        ∃ st', incStep st page = .next st' rows) := by
  refine ⟨⟨?_, ?_⟩, fun rows => incStep_ne_stopNoLcd st page rows, ?_⟩
  · intro h
    cases page with
    | nil => rfl
    | cons x xs => exact absurd h (incStep_cons_ne_stopEmpty st x xs)
  · rintro rfl
    rfl
  · intro rows hok hne
    cases page with
    | nil => exact absurd rfl hne
    | cons x xs =>
      obtain ⟨r, hr⟩ := transform_ok_mem hok _ (List.getLast_mem (List.cons_ne_nil x xs))
      obtain ⟨t, hlast⟩ := transformOne_ok_lcd hr
      rw [incStep_advance st x xs rows t hok hlast]
      split
      · exact ⟨_, rfl⟩
      · exact ⟨_, rfl⟩

/-- **C1** counterexample: a non-empty page — one record lacking the required
timestamp keys — on which the run nevertheless terminates: the transformation
raises `KeyError`, which propagates out of the loop. -/
theorem C1_counterexample :
    incStep (α := Unit) ⟨WbStr.wf sampleTs, none⟩ [{}] = .crash PyErr.keyError []
    ∧ ([({} : WbOrder Unit)] ≠ ([] : List (WbOrder Unit))) :=
  ⟨rfl, by simp⟩

/-- Witness for C1 at concrete inputs: the empty page stops the loop, and a
well-formed singleton page advances it. -/
theorem C1_witness :
    incStep (α := Unit) ⟨WbStr.wf sampleTs, none⟩ [] = .stopEmpty
    ∧ ∃ st', incStep (α := Unit) ⟨WbStr.wf sampleTs, none⟩ [sampleOrder]
        = .next st' [sampleRow] :=
  ⟨(C1_empty_page_termination ⟨WbStr.wf sampleTs, none⟩ []).1.mpr rfl,
   (C1_empty_page_termination ⟨WbStr.wf sampleTs, none⟩ [sampleOrder]).2.2 [sampleRow]
     (by rfl) (by simp)⟩

/-- **C2**.  Stall guard: on a non-empty page whose transformation succeeds
and whose last record carries the well-formed `lastChangeDate` string `t` —
if the page has at least 80000 records and `t` equals the previous cursor,
the next cursor is the upstream-local formatting of `t`'s instant plus
exactly one second (one million microseconds); on every other such page the
next cursor is exactly the raw string `t` itself, not re-derived from the
normalized instant. -/
theorem C2_stall_guard {α : Type} (st : IncState) (page : List (WbOrder α))
    (rows : List (SinkRow α)) (t : WbTimestamp) (hne : page ≠ [])
    (hok : transform_wb_orders page = .ok rows)
    (hlast : (page.getLast hne).lastChangeDate = some (WbStr.wf t)) :
    (st.prev_cursor = some (WbStr.wf t) ∧ 80000 ≤ page.length →
      incStep st page
        = .next ⟨WbStr.wf (format_dt_for_wb (parse_wb_dt_to_utc t + 1000000)),
            some (WbStr.wf t)⟩ rows)
    ∧ (¬(st.prev_cursor = some (WbStr.wf t) ∧ 80000 ≤ page.length) →
      incStep st page = .next ⟨WbStr.wf t, some (WbStr.wf t)⟩ rows) := by
  cases page with
  | nil => exact absurd rfl hne
  | cons x xs =>
    rw [incStep_advance st x xs rows t hok hlast]
    constructor
    · intro h
      rw [if_pos h]
    · intro h
      rw [if_neg h]

/-- Witness for C2: a maximal page of 80000 identical records whose timestamp
equals the previous cursor gets the one-second bump; a singleton page with
the same repeated timestamp advances to the raw string. -/
theorem C2_witness :
    incStep (α := Unit) ⟨WbStr.wf sampleTs, some (WbStr.wf sampleTs)⟩
        (List.replicate 80000 sampleOrder)
      = .next ⟨WbStr.wf (format_dt_for_wb (parse_wb_dt_to_utc sampleTs + 1000000)),
          some (WbStr.wf sampleTs)⟩ (List.replicate 80000 sampleRow)
    ∧ incStep (α := Unit) ⟨WbStr.wf sampleTs, some (WbStr.wf sampleTs)⟩ [sampleOrder]
      = .next ⟨WbStr.wf sampleTs, some (WbStr.wf sampleTs)⟩ [sampleRow] :=
  ⟨(C2_stall_guard ⟨WbStr.wf sampleTs, some (WbStr.wf sampleTs)⟩
      (List.replicate 80000 sampleOrder) (List.replicate 80000 sampleRow) sampleTs
      (by rw [← List.length_pos, List.length_replicate]; norm_num)
      (transform_replicate sampleOrder sampleRow rfl 80000)
      (by rw [getLast_replicate]; rfl)).1
    ⟨rfl, by rw [List.length_replicate]⟩,
   (C2_stall_guard ⟨WbStr.wf sampleTs, some (WbStr.wf sampleTs)⟩
      [sampleOrder] [sampleRow] sampleTs (by simp) (by rfl) (by rfl)).2
      (by simp)⟩

/-- **C10**.  The stall guard can never trigger on the first page of an
incremental run: the initial state has `prev_cursor = None`, so even a page
of 80000 or more records whose last `lastChangeDate` string equals the
initial fetch cursor advances the cursor to that raw string with no
one-second bump. -/
theorem C10_first_page_no_bump {α : Type} (cfg : Config) (table : List (SinkRow α))
    (page : List (WbOrder α)) (rows : List (SinkRow α)) (t : WbTimestamp) (hne : page ≠ [])
    (hok : transform_wb_orders page = .ok rows)
    (hlast : (page.getLast hne).lastChangeDate = some (WbStr.wf t))
    (hbig : 80000 ≤ page.length)
    (hcur : WbStr.wf t = (incInitState cfg table).cursor) :
    (incInitState cfg table).prev_cursor = none
    ∧ incStep (incInitState cfg table) page
        = .next ⟨WbStr.wf t, some (WbStr.wf t)⟩ rows := by
  refine ⟨rfl, ?_⟩
  cases page with
  | nil => exact absurd rfl hne
  | cons x xs =>
    rw [incStep_advance _ x xs rows t hok hlast, if_neg]
    intro hcontra
    simp [incInitState] at hcontra

/-- Witness for C10: a default run over an empty sink starts at cursor
2022-12-31T22:00:00 (Moscow); a first page of 80000 records all carrying
exactly that `lastChangeDate` still advances to the raw string. -/
theorem C10_witness :
    (incInitState (α := Unit) defaultConfig []).prev_cursor = none
    ∧ incStep (incInitState (α := Unit) defaultConfig [])
        (List.replicate 80000 cursorOrder)
      = .next ⟨WbStr.wf cursorTs, some (WbStr.wf cursorTs)⟩
          (List.replicate 80000 cursorRow) :=
  C10_first_page_no_bump defaultConfig [] (List.replicate 80000 cursorOrder)
    (List.replicate 80000 cursorRow) cursorTs
    (by rw [← List.length_pos, List.length_replicate]; norm_num)
    (transform_replicate cursorOrder cursorRow rfl 80000)
    (by rw [getLast_replicate]; rfl)
    (by rw [List.length_replicate])
    (by decide)

/-- **C3** (amended).  Within the retry budget, a 429 response makes
`wb_request` sleep `max(WB_SLEEP_SECONDS, 65)` — at least the configured
rate-limit interval — and retry the very same request (same `dateFrom`, same
`flag`), the eventual result being whatever the retry produces, so a
rate-limited attempt by itself neither changes the request nor discards data.
However, 429 responses consume the shared `max_retries` budget, and an
exhausted budget returns the empty list (see the counterexample). -/
theorem C3_rate_limit_retry {α : Type} (cfg : Config) (df : DateFrom) (flag : Nat)
    (oracle : Nat → WbResp α) (attempt rem : Nat)
    (h429 : oracle attempt = .status 429) (hrem : 1 ≤ rem) :
    wbRequestGo cfg df flag oracle attempt rem
      = (WbEv.request df flag :: WbEv.sleep (max cfg.wb_sleep_seconds 65)
          :: (wbRequestGo cfg df flag oracle (attempt + 1) (rem - 1)).1,
         (wbRequestGo cfg df flag oracle (attempt + 1) (rem - 1)).2)
    ∧ cfg.wb_sleep_seconds ≤ max cfg.wb_sleep_seconds 65
    ∧ wbRequestGo cfg df flag oracle attempt 0 = ([], []) := by
  obtain ⟨k, rfl⟩ : ∃ k, rem = k + 1 := ⟨rem - 1, by omega⟩
  refine ⟨?_, le_max_left _ _, rfl⟩
  simp [wbRequestGo, h429]

/-- **C3** counterexample: six consecutive rate-limit responses exhaust the
retry budget and `wb_request` returns the empty list — the page is dropped
because of rate limiting alone (and the caller treats an empty result as
loop termination). -/
theorem C3_counterexample :
    wb_request (α := Unit) defaultConfig (DateFrom.ts (WbStr.wf sampleTs)) 0
        (fun _ => WbResp.status 429) 6
      = ([.request (DateFrom.ts (WbStr.wf sampleTs)) 0, .sleep 65,
          .request (DateFrom.ts (WbStr.wf sampleTs)) 0, .sleep 65,
          .request (DateFrom.ts (WbStr.wf sampleTs)) 0, .sleep 65,
          .request (DateFrom.ts (WbStr.wf sampleTs)) 0, .sleep 65,
          .request (DateFrom.ts (WbStr.wf sampleTs)) 0, .sleep 65,
          .request (DateFrom.ts (WbStr.wf sampleTs)) 0, .sleep 65], []) := by
  rfl

/-- Witness for C3: the first attempt of an all-429 run sleeps 65 seconds and
retries the same request with the remaining budget. -/
theorem C3_witness :
    (wbRequestGo (α := Unit) defaultConfig (DateFrom.ts (WbStr.wf sampleTs)) 0
        (fun _ => WbResp.status 429) 1 6
      = (WbEv.request (DateFrom.ts (WbStr.wf sampleTs)) 0
          :: WbEv.sleep (max defaultConfig.wb_sleep_seconds 65)
          :: (wbRequestGo (α := Unit) defaultConfig (DateFrom.ts (WbStr.wf sampleTs)) 0
                (fun _ => WbResp.status 429) 2 5).1,
         (wbRequestGo (α := Unit) defaultConfig (DateFrom.ts (WbStr.wf sampleTs)) 0
            (fun _ => WbResp.status 429) 2 5).2))
    ∧ defaultConfig.wb_sleep_seconds ≤ max defaultConfig.wb_sleep_seconds 65
    ∧ wbRequestGo (α := Unit) defaultConfig (DateFrom.ts (WbStr.wf sampleTs)) 0
        (fun _ => WbResp.status 429) 1 0 = ([], []) :=
  C3_rate_limit_retry defaultConfig (DateFrom.ts (WbStr.wf sampleTs)) 0
    (fun _ => WbResp.status 429) 1 6 rfl (by omega)

/-- **C4**.  Timezone round trip: parsing any well-formed local-time string
without UTC offset as Moscow wall-clock time and formatting the resulting
UTC instant back for the upstream returns the original string truncated to
whole seconds. -/
theorem C4_timezone_roundtrip (t : WbTimestamp) (hv : t.Valid) (ho : t.offset = none) :
    format_dt_for_wb (parse_wb_dt_to_utc t)
      = ⟨t.year, t.month, t.day, t.hour, t.minute, t.second, 0, none⟩ :=
  parse_format_roundtrip t hv ho

/-- Witness for C4 at a leap-day timestamp with a fractional part. -/
theorem C4_witness :
    (⟨2024, 2, 29, 23, 59, 59, 123456, none⟩ : WbTimestamp).Valid
    ∧ format_dt_for_wb (parse_wb_dt_to_utc ⟨2024, 2, 29, 23, 59, 59, 123456, none⟩)
        = ⟨2024, 2, 29, 23, 59, 59, 0, none⟩ :=
  ⟨by decide, C4_timezone_roundtrip ⟨2024, 2, 29, 23, 59, 59, 123456, none⟩ (by decide) rfl⟩

theorem transformOne_shaped_ok {α : Type} (o : WbOrder α) (hs : UpstreamShaped o) :
    ∃ r, transformOne o = .ok r := by
  obtain ⟨⟨dt, hdate⟩, ⟨lt, hlcd⟩, hcancel⟩ := hs
  rcases hcancel with hc | ⟨ct, hc⟩
  · simp only [transformOne, hdate, hlcd, hc, isoparseStr]
    exact ⟨_, rfl⟩
  · simp only [transformOne, hdate, hlcd, hc, isoparseStr]
    by_cases hco : (WbStr.wf ct).truthy = true ∧ WbStr.wf ct ≠ sentinelStr
    · rw [if_pos hco]
      exact ⟨_, rfl⟩
    · rw [if_neg hco]
      exact ⟨_, rfl⟩

/-- **C5**.  The record transformer is total on §3-shaped upstream records
and performs no filtering or aggregation: it succeeds and produces exactly
one sink row per input record, in the same order. -/
theorem C5_transform_total {α : Type} (orders : List (WbOrder α))
    (hshape : ∀ o ∈ orders, UpstreamShaped o) :
    ∃ rows, transform_wb_orders orders = .ok rows
      ∧ rows.length = orders.length
      ∧ List.Forall₂ (fun o r => transformOne o = Except.ok r) orders rows := by
  induction orders with
  | nil => exact ⟨[], rfl, rfl, List.Forall₂.nil⟩
  | cons x xs ih =>
    obtain ⟨rows, hok, hlen, hall⟩ := ih (fun o ho => hshape o (List.mem_cons_of_mem x ho))
    obtain ⟨r, hr⟩ := transformOne_shaped_ok x (hshape x (List.mem_cons_self x xs))
    refine ⟨r :: rows, ?_, by simp [hlen], List.Forall₂.cons hr hall⟩
    rw [transform_ok_cons]
    exact ⟨r, rows, hr, hok, rfl⟩

/-- Witness for C5 on a concrete singleton record list. -/
theorem C5_witness :
    ∃ rows, transform_wb_orders [sampleOrder] = .ok rows
      ∧ rows.length = [sampleOrder].length
      ∧ List.Forall₂ (fun o r => transformOne o = Except.ok r) [sampleOrder] rows :=
  C5_transform_total [sampleOrder] (by
    intro o ho
    rw [List.mem_singleton] at ho
    subst ho
    exact ⟨⟨sampleTs, rfl⟩, ⟨sampleTs, rfl⟩, Or.inl rfl⟩)

/-- **C6**.  Sentinel cancellation: a record whose `cancelDate` is the string
`"0001-01-01T00:00:00"` transforms to a sink row with an absent
`cancel_date`, never a real instant. -/
theorem C6_sentinel_cancellation {α : Type} (o : WbOrder α) (r : SinkRow α)
    (hc : o.cancelDate = some sentinelStr) (h : transformOne o = .ok r) :
    r.cancel_date = none := by
  cases hdate : o.date with
  | none => simp [transformOne, hdate] at h
  | some ds =>
    cases ds with
    | emptyStr => simp [transformOne, hdate, isoparseStr] at h
    | malformed => simp [transformOne, hdate, isoparseStr] at h
    | wf dateTs =>
      cases hlcd : o.lastChangeDate with
      | none => simp [transformOne, hdate, hlcd, isoparseStr] at h
      | some ls =>
        cases ls with
        | emptyStr => simp [transformOne, hdate, hlcd, isoparseStr] at h
        | malformed => simp [transformOne, hdate, hlcd, isoparseStr] at h
        | wf lcdTs =>
          simp only [transformOne, hdate, hlcd, isoparseStr, hc] at h
          rw [if_neg (fun hco => hco.2 rfl)] at h
          simp only [Except.ok.injEq] at h
          subst h
          rfl

/-- Witness for C6 on a concrete record carrying the sentinel. -/
theorem C6_witness :
    ∃ r, transformOne sampleCancelOrder = .ok r ∧ r.cancel_date = none :=
  ⟨transformFields sampleCancelOrder (parse_wb_dt_to_utc sampleTs)
      (parse_wb_dt_to_utc sampleTs) none,
   rfl, C6_sentinel_cancellation sampleCancelOrder _ rfl rfl⟩

/-- **C7**.  Overlap correction: for every sink table and configuration, the
very first upstream fetch of `incremental_sync` uses the cursor obtained by
formatting, in upstream-local time, exactly the instant
`high-water mark − overlap_minutes` (in microseconds). -/
theorem C7_overlap_start {α : Type} (cfg : Config) (table : List (SinkRow α))
    (pages : List (List (WbOrder α))) :
    (incremental_sync cfg table pages).head?
      = some (Event.fetch (DateFrom.ts (WbStr.wf (format_dt_for_wb
          (get_db_max_last_change_date_utc table
            - cfg.overlap_minutes * 60 * 1000000)))) 0) := by
  cases pages <;> rfl

/-- **C8**.  High-water-mark floor: on an empty sink table the cursor read
returns 2023-01-01T00:00:00 Moscow time converted to UTC; on a non-empty
table it returns the stored maximum `last_change_date`. -/
theorem C8_high_water_floor {α : Type} (table : List (SinkRow α)) :
    (table = [] → get_db_max_last_change_date_utc table
        = parse_wb_dt_to_utc ⟨2023, 1, 1, 0, 0, 0, 0, none⟩)
    ∧ (table ≠ [] →
        (∀ r ∈ table, r.last_change_date ≤ get_db_max_last_change_date_utc table)
        ∧ ∃ r ∈ table, get_db_max_last_change_date_utc table = r.last_change_date) := by
  constructor
  · rintro rfl
    rfl
  · intro hne
    have hanti : Std.Antisymm ((· : Int) ≤ ·) := ⟨fun h1 h2 => le_antisymm h1 h2⟩
    cases hmax : (table.map (fun r => r.last_change_date)).max? with
    | none =>
      rw [List.max?_eq_none_iff] at hmax
      simp only [List.map_eq_nil_iff] at hmax
      exact absurd hmax hne
    | some v =>
      have hres : get_db_max_last_change_date_utc table = v := by
        simp [get_db_max_last_change_date_utc, hmax]
      rw [List.max?_eq_some_iff (fun a => le_refl a) (fun a b => max_choice a b)
        (fun a b c => max_le_iff)] at hmax
      obtain ⟨hmem, hbound⟩ := hmax
      constructor
      · intro r hr
        rw [hres]
        exact hbound _ (List.mem_map_of_mem (fun r => r.last_change_date) hr)
      · obtain ⟨r, hr, hrv⟩ := List.mem_map.mp hmem
        exact ⟨r, hr, by rw [hres, hrv]⟩

/-- Witness for C8: the empty table yields the Moscow 2023-01-01 floor, a
one-row table yields its stored maximum. -/
theorem C8_witness :
    (get_db_max_last_change_date_utc ([] : List (SinkRow Unit))
        = parse_wb_dt_to_utc ⟨2023, 1, 1, 0, 0, 0, 0, none⟩)
    ∧ ((∀ r ∈ [sampleSinkRow], r.last_change_date
          ≤ get_db_max_last_change_date_utc [sampleSinkRow])
        ∧ ∃ r ∈ [sampleSinkRow],
          get_db_max_last_change_date_utc [sampleSinkRow] = r.last_change_date) :=
  ⟨(C8_high_water_floor ([] : List (SinkRow Unit))).1 rfl,
   (C8_high_water_floor [sampleSinkRow]).2 (by simp)⟩

set_option maxHeartbeats 1000000 in
theorem daysBeforeYear_succ (y : Nat) (hy : 1 ≤ y) :
    daysBeforeYear (y + 1) = daysBeforeYear y + 365 + (if isLeap y = true then 1 else 0) := by
  by_cases hL : isLeap y = true
  · rw [if_pos hL]
    simp only [isLeap, Bool.and_eq_true, beq_iff_eq, Bool.or_eq_true, bne_iff_ne, ne_eq] at hL
    simp only [daysBeforeYear]
    omega
  · rw [if_neg hL]
    simp only [isLeap, Bool.and_eq_true, beq_iff_eq, Bool.or_eq_true, bne_iff_ne, ne_eq] at hL
    simp only [daysBeforeYear]
    omega

theorem toordinal_nextCivilDay (y m d : Nat) (hy : 1 ≤ y) (hm1 : 1 ≤ m) (hm2 : m ≤ 12)
    (hd1 : 1 ≤ d) (hd2 : d ≤ daysInMonth y m) :
    toordinal (nextCivilDay y m d).1 (nextCivilDay y m d).2.1 (nextCivilDay y m d).2.2
      = toordinal y m d + 1 := by
  unfold nextCivilDay
  split_ifs with h1 h2
  · simp only [toordinal]
    omega
  · have hdEq : d = daysInMonthFlag m (isLeap y) := by
      simp only [daysInMonth] at hd2 h1
      omega
    subst hdEq
    simp only [toordinal, daysBeforeMonth]
    cases hL : isLeap y <;>
      interval_cases m <;>
      norm_num [daysBeforeMonthTbl, daysInMonthFlag]
  · have hm12 : m = 12 := by omega
    subst hm12
    have hd31 : d = 31 := by
      simp only [daysInMonth, daysInMonthFlag] at hd2 h1
      omega
    subst hd31
    simp only [toordinal, daysBeforeMonth, daysInMonth]
    rw [daysBeforeYear_succ y hy]
    norm_num [daysBeforeMonthTbl]
    split_ifs <;> omega

theorem parse_midnight_next (y m d : Nat) (hy : 1 ≤ y) (hm1 : 1 ≤ m) (hm2 : m ≤ 12)
    (hd1 : 1 ≤ d) (hd2 : d ≤ daysInMonth y m) :
    parse_wb_dt_to_utc ⟨(nextCivilDay y m d).1, (nextCivilDay y m d).2.1,
        (nextCivilDay y m d).2.2, 0, 0, 0, 0, none⟩
      = parse_wb_dt_to_utc ⟨y, m, d, 0, 0, 0, 0, none⟩ + 86400 * 1000000 := by
  have h := toordinal_nextCivilDay y m d hy hm1 hm2 hd1 hd2
  simp only [parse_wb_dt_to_utc, mskOffsetSeconds, epochOrdinal, Nat.cast_ofNat]
  rw [h]
  push_cast
  ring

/-- **C9**.  Reload ordering and delete range: the range delete is the very
first call `full_reload_day_msk` issues — before the upstream fetch and
before every upsert in the call sequence — and its filter bounds are Moscow
midnight of the civil day and Moscow midnight of the next civil day (a
half-open interval); rows dated outside that interval survive the delete,
and every deleted row was dated inside it. -/
theorem C9_reload_ordering {α : Type} (cfg : Config) (y m d : Nat)
    (hy : 1 ≤ y) (hm1 : 1 ≤ m) (hm2 : m ≤ 12) (hd1 : 1 ≤ d) (hd2 : d ≤ daysInMonth y m)
    (wb_data : List (WbOrder α)) (table : List (SinkRow α)) :
    (∃ rest, full_reload_day_msk cfg y m d wb_data
        = Event.deleteRange (parse_wb_dt_to_utc ⟨y, m, d, 0, 0, 0, 0, none⟩)
            (parse_wb_dt_to_utc ⟨y, m, d, 0, 0, 0, 0, none⟩ + 86400 * 1000000) :: rest)
    ∧ parse_wb_dt_to_utc ⟨y, m, d, 0, 0, 0, 0, none⟩ + 86400 * 1000000
        = parse_wb_dt_to_utc ⟨(nextCivilDay y m d).1, (nextCivilDay y m d).2.1,
            (nextCivilDay y m d).2.2, 0, 0, 0, 0, none⟩
    ∧ (∀ r ∈ table,
        ¬(parse_wb_dt_to_utc ⟨y, m, d, 0, 0, 0, 0, none⟩ ≤ r.date
          ∧ r.date < parse_wb_dt_to_utc ⟨y, m, d, 0, 0, 0, 0, none⟩ + 86400 * 1000000) →
        r ∈ applyDeleteRange (parse_wb_dt_to_utc ⟨y, m, d, 0, 0, 0, 0, none⟩)
          (parse_wb_dt_to_utc ⟨y, m, d, 0, 0, 0, 0, none⟩ + 86400 * 1000000) table)
    ∧ (∀ r ∈ table,
        r ∉ applyDeleteRange (parse_wb_dt_to_utc ⟨y, m, d, 0, 0, 0, 0, none⟩)
          (parse_wb_dt_to_utc ⟨y, m, d, 0, 0, 0, 0, none⟩ + 86400 * 1000000) table →
        parse_wb_dt_to_utc ⟨y, m, d, 0, 0, 0, 0, none⟩ ≤ r.date
          ∧ r.date < parse_wb_dt_to_utc ⟨y, m, d, 0, 0, 0, 0, none⟩ + 86400 * 1000000) := by
  refine ⟨⟨_, rfl⟩, (parse_midnight_next y m d hy hm1 hm2 hd1 hd2).symm, ?_, ?_⟩
  · intro r hr hout
    simp only [applyDeleteRange, List.mem_filter, Bool.not_eq_true', decide_eq_false_iff_not]
    exact ⟨hr, hout⟩
  · intro r hr hnot
    by_contra hcon
    exact hnot (by
      simp only [applyDeleteRange, List.mem_filter, Bool.not_eq_true', decide_eq_false_iff_not]
      exact ⟨hr, hcon⟩)

/-- Witness for C9 on the spec's own scenario `RELOAD("2024-03-01")`: the
delete event with the Moscow-day bounds heads the call sequence, and a row
dated in February survives the delete. -/
theorem C9_witness :
    (∃ rest, full_reload_day_msk (α := Unit) defaultConfig 2024 3 1 []
        = Event.deleteRange (parse_wb_dt_to_utc ⟨2024, 3, 1, 0, 0, 0, 0, none⟩)
            (parse_wb_dt_to_utc ⟨2024, 3, 1, 0, 0, 0, 0, none⟩ + 86400 * 1000000) :: rest)
    ∧ outRangeRow ∈ applyDeleteRange (parse_wb_dt_to_utc ⟨2024, 3, 1, 0, 0, 0, 0, none⟩)
        (parse_wb_dt_to_utc ⟨2024, 3, 1, 0, 0, 0, 0, none⟩ + 86400 * 1000000)
        [inRangeRow, outRangeRow] :=
  ⟨(C9_reload_ordering defaultConfig 2024 3 1 (by omega) (by omega) (by omega) (by omega)
      (by decide) [] [inRangeRow, outRangeRow]).1,
   (C9_reload_ordering defaultConfig 2024 3 1 (by omega) (by omega) (by omega) (by omega)
      (by decide) [] [inRangeRow, outRangeRow]).2.2.1 outRangeRow (by simp)
     (by decide)⟩

end WbSync
